import Mathlib

/-!
Shallow embedding of the basic-http-server repository (src/server/http.rs).

Modelling conventions:
* A byte on the wire is modelled as a `Char` (one scalar value per byte).
  The lossy UTF-8 decode performed by the Rust code
  (`String.from_utf8_lossy`) is modelled as the identity, which is exact
  for ASCII data; all the properties below are about ASCII request data.
* A TCP stream is modelled as a queue of read results: each `read` call
  pops the next element; `none` models an I/O error (the Rust code calls
  `.unwrap()` on it, i.e. panics), `some data` models a successful read
  returning `data`.  An exhausted queue models EOF (a read that returns
  no bytes and leaves the buffer zeroed).
* Rust panics (`unwrap` on `Err`/`None`, `usize` subtraction overflow in
  a debug build, which is how the crate is built and run) are modelled by
  the `panicked` outcome; they abort the process instead of returning.
* `HashMap<String, String>` is modelled as an association list with
  in-place last-write-wins insertion; its iteration order is a model
  choice, since the Rust iteration order is unspecified.
-/

/-- The NUL byte used by `trim_matches(char::from(0))` and as buffer padding. -/
def nullChar : Char := Char.ofNat 0

abbrev Bytes := List Char

abbrev Headers := List (Bytes × Bytes)

abbrev ByteStream := List (Option Bytes)

/-- Rust `char::is_whitespace` restricted to the Latin-1 range
(the only values a one-byte model can produce). -/
def isWS (c : Char) : Bool :=
  c = ' ' || c = '\t' || c = '\n' || c = '\x0b' || c = '\x0c' || c = '\r' ||
    c = '\x85' || c = '\xa0'

/-- Rust `str::split("\r\n")`: split on the leftmost occurrences of the
two-character separator. -/
def splitCRLF : Bytes → List Bytes
  | [] => [[]]
  | [c] => [[c]]
  | c :: d :: rest =>
    if c = '\r' ∧ d = '\n' then [] :: splitCRLF rest
    else (splitCRLF (d :: rest)).modifyHead (c :: ·)

/-- Rust `Vec::join("\r\n")`. -/
def joinCRLF : List Bytes → Bytes
  | [] => []
  | [x] => x
  | x :: y :: rest => x ++ '\r' :: '\n' :: joinCRLF (y :: rest)

/-- Whether the two-character sequence CR LF occurs in `xs`. -/
def containsCRLF : Bytes → Bool
  | [] => false
  | [_] => false
  | c :: d :: rest => (c = '\r' && d = '\n') || containsCRLF (d :: rest)

/-- Accumulator worker for `splitWhitespace` (`acc` holds the current
token reversed). -/
def splitWSAux : Bytes → Bytes → List Bytes
  | acc, [] => if acc = [] then [] else [acc.reverse]
  | acc, c :: rest =>
    if isWS c then
      if acc = [] then splitWSAux [] rest
      else acc.reverse :: splitWSAux [] rest
    else splitWSAux (c :: acc) rest

/-- Rust `str::split_whitespace`: maximal runs of non-whitespace
characters, leading/trailing/repeated whitespace ignored. -/
def splitWhitespace (xs : Bytes) : List Bytes :=
  splitWSAux [] xs

/-- Rust `str::splitn(2, ": ")`, as used on header lines: the part before
the first occurrence of the separator, and (when the separator occurs)
everything after it. -/
def splitn2Colon : Bytes → Bytes × Option Bytes
  | [] => ([], none)
  | [c] => ([c], none)
  | c :: d :: rest =>
    if c = ':' ∧ d = ' ' then ([], some rest)
    else
      let p := splitn2Colon (d :: rest)
      (c :: p.1, p.2)

/-- Rust `str::trim_matches(char::from(0))`: strip NUL characters from
both ends. -/
def trimNulls (xs : Bytes) : Bytes :=
  ((xs.reverse.dropWhile (· = nullChar)).reverse).dropWhile (· = nullChar)

/-- Numeric value of a digit string (most significant first). -/
def digitsVal (xs : Bytes) : Nat :=
  xs.foldl (fun acc c => acc * 10 + (c.toNat - 48)) 0

/-- Rust `str::parse::<usize>()`: an optional leading plus sign followed
by a non-empty run of ASCII digits; anything else is a parse error.
(The overflow failure of the Rust parser is not modelled; no claim
exercises values near `usize::MAX`.) -/
def parseUsize (xs : Bytes) : Option Nat :=
  let t := match xs with
    | '+' :: rest => rest
    | _ => xs
  if t ≠ [] ∧ t.all (·.isDigit) then some (digitsVal t) else none

/-- `HashMap::insert`, modelled on an association list: replace the value
in place if the key is present, otherwise append. -/
def insertAssoc (m : Headers) (k v : Bytes) : Headers :=
  match m with
  | [] => [(k, v)]
  | (k', v') :: rest =>
    if k' = k then (k, v) :: rest else (k', v') :: insertAssoc rest k v

/-- `HashMap::get`, modelled on an association list. -/
def getAssoc (m : Headers) (k : Bytes) : Option Bytes :=
  match m with
  | [] => none
  | (k', v) :: rest => if k' = k then some v else getAssoc rest k

/-- The header loop of `parse_request` (http.rs lines 213-224): iterate
the lines after the request line, stop at the first empty line, split
each line on the first `": "` and insert into the map.  A line with no
`": "` makes `parts.next().unwrap()` panic on the value, modelled by
`none`. -/
def collectHeaders (acc : Headers) : List Bytes → Option Headers
  | [] => some acc
  | line :: rest =>
    if line = [] then some acc
    else
      match splitn2Colon line with
      | (_, none) => none
      | (k, some v) => collectHeaders (insertAssoc acc k v) rest

inductive HttpMethod
  | Get | Post | Put | Patch | Delete | Head | Options | Trace
deriving DecidableEq

/-- `impl FromStr for HttpMethod` (http.rs lines 61-77): the eight wire
tokens map to the symbolic methods, everything else is `Err(())`. -/
def methodFromStr (s : Bytes) : Option HttpMethod :=
  if s = "GET".toList then some .Get
  else if s = "POST".toList then some .Post
  else if s = "PUT".toList then some .Put
  else if s = "PATCH".toList then some .Patch
  else if s = "DELETE".toList then some .Delete
  else if s = "HEAD".toList then some .Head
  else if s = "OPTIONS".toList then some .Options
  else if s = "TRACE".toList then some .Trace
  else none

inductive HttpStatusCode
  | Ok | Created | Accepted | NoContent | MovedPermanently | Found
  | NotModified | BadRequest | Unauthorized | Forbidden | NotFound
  | MethodNotAllowed | InternalServerError | NotImplemented | BadGateway
  | ServiceUnavailable
deriving DecidableEq

/-- `HttpStatusCode::to_http_status` (http.rs lines 26-47). -/
def toHttpStatus : HttpStatusCode → Nat × Bytes
  | .Ok => (200, "OK".toList)
  | .Created => (201, "CREATED".toList)
  | .Accepted => (202, "ACCEPTED".toList)
  | .NoContent => (204, "NO CONTENT".toList)
  | .MovedPermanently => (301, "MOVED PERMANENTLY".toList)
  | .Found => (302, "FOUND".toList)
  | .NotModified => (304, "NOT MODIFIED".toList)
  | .BadRequest => (400, "BAD REQUEST".toList)
  | .Unauthorized => (401, "UNAUTHORIZED".toList)
  | .Forbidden => (403, "FORBIDDEN".toList)
  | .NotFound => (404, "NOT FOUND".toList)
  | .MethodNotAllowed => (405, "METHOD NOT ALLOWED".toList)
  | .InternalServerError => (500, "INTERNAL SERVER ERROR".toList)
  | .NotImplemented => (501, "NOT IMPLEMENTED".toList)
  | .BadGateway => (502, "BAD GATEWAY".toList)
  | .ServiceUnavailable => (503, "SERVICE UNAVAILABLE".toList)

structure HttpRequest where
  method : HttpMethod
  path : Bytes
  headers : Headers
  body : Bytes
deriving DecidableEq

structure HttpResponse where
  status : HttpStatusCode
  headers : Headers
  body : Bytes
deriving DecidableEq

/-- The header-rendering loop of `HttpResponse::to_string` (http.rs
lines 97-101): fold over the headers pushing `"Key: Value\r\n"`. -/
def renderHeaderLines (hs : Headers) : Bytes :=
  hs.foldl (fun acc kv => acc ++ kv.1 ++ ": ".toList ++ kv.2 ++ "\r\n".toList) []

/-- Decimal rendering of a natural number, as Rust `format!` does for the
numeric status code. -/
def natRepr (n : Nat) : Bytes := (Nat.repr n).toList

/-- `HttpResponse::to_string` (http.rs lines 93-110):
`format!("HTTP/1.1 {} {}\r\n{}\r\n{}", status_code, status, headers, body)`. -/
def responseToString (r : HttpResponse) : Bytes :=
  "HTTP/1.1 ".toList ++ natRepr (toHttpStatus r.status).1 ++
    ' ' :: (toHttpStatus r.status).2 ++
    '\r' :: '\n' :: renderHeaderLines r.headers ++ '\r' :: '\n' :: r.body

/-- Modelled from the spec (section 4.2), as a refinement reference for
the serializer: the exact byte sequence
`HTTP/1.1 <code> <REASON>` CRLF, each header rendered once as
`Key: Value` CRLF, a blank line, then the body with no trailing
terminator and no injected Content-Length. -/
def specSerialize (r : HttpResponse) : Bytes :=
  "HTTP/1.1 ".toList ++ natRepr (toHttpStatus r.status).1 ++ " ".toList ++
    (toHttpStatus r.status).2 ++ "\r\n".toList ++
    (r.headers.map (fun kv => kv.1 ++ ": ".toList ++ kv.2 ++ "\r\n".toList)).flatten ++
    "\r\n".toList ++ r.body

/-- The request-line stage of `parse_request` (http.rs lines 201-209):
split the first line on whitespace, parse the first token as a method
(missing or unknown token fails), take the second token as the path
(missing fails), and never look at anything after the second token. -/
def parseRequestLine (line : Bytes) : Option (HttpMethod × Bytes) :=
  match splitWhitespace line with
  | [] => none
  | mtok :: rest =>
    match methodFromStr mtok with
    | none => none
    | some m =>
      match rest with
      | [] => none
      | p :: _ => some (m, p)

/-- Size of the fixed initial read buffer (`let mut buffer = [0; 2048]`). -/
def bufSize : Nat := 2048

/-- One `stream.read(&mut buffer)` call with a zeroed buffer of size `n`:
pop the next read result; on success the buffer holds the returned bytes
(truncated to `n`) followed by the untouched zero padding.  `none` is an
I/O error.  An exhausted queue is EOF: zero bytes read. -/
def streamRead (s : ByteStream) (n : Nat) : Option Bytes × ByteStream :=
  match s with
  | [] => (some (List.replicate n nullChar), [])
  | r :: rest =>
    (r.map (fun data => data.take n ++ List.replicate (n - data.length) nullChar), rest)

/-- The Content-Length stage of `parse_request` (http.rs lines 226-230):
absent header means 0; a present header is parsed with
`parse::<usize>()` and the result unwrapped, so a non-numeric value
panics (modelled by `none`). -/
def contentLengthOf (headers : Headers) : Option Nat :=
  match getAssoc headers ("Content-Length".toList) with
  | none => some 0
  | some v => parseUsize v

inductive PRes (α : Type)
  | ok (a : α)
  | err
  | panicked
deriving DecidableEq

/-- The body stage of `parse_request` (http.rs lines 226-260), after the
headers have been collected.  `restLines` are the lines after the request
line.  Returns the outcome together with the sizes of the extra reads it
performs.  The `usize` subtraction `content_length - body.len()` aborts
on underflow; the second `read` unwraps its result, so a failing read
panics; a successful second read appends the whole buffer (padding
included) without trimming. -/
def parseWithHeaders (m : HttpMethod) (p : Bytes) (headers : Headers)
    (restLines : List Bytes) (s1 : ByteStream) : PRes HttpRequest × List Nat :=
  match contentLengthOf headers with
  | none => (.panicked, [])
  | some contentLength =>
    let chunk := trimNulls (joinCRLF (restLines.drop (headers.length + 1)))
    if contentLength < chunk.length then (.panicked, [])
    else
      let leftToRead := contentLength - chunk.length
      if leftToRead = 0 then (.ok ⟨m, p, headers, chunk⟩, [])
      else
        match streamRead s1 leftToRead with
        | (none, _) => (.panicked, [leftToRead])
        | (some buf2, _) => (.ok ⟨m, p, headers, chunk ++ buf2⟩, [leftToRead])

/-- `parse_request` after the initial read has produced `buffer`
(http.rs lines 193-260). -/
def parseFromBuffer (buffer : Bytes) (s1 : ByteStream) :
    PRes HttpRequest × List Nat :=
  match splitCRLF buffer with
  | [] => (.err, [])
  | firstLine :: restLines =>
    match parseRequestLine firstLine with
    | none => (.err, [])
    | some mp =>
      match collectHeaders [] restLines with
      | none => (.panicked, [])
      | some headers => parseWithHeaders mp.1 mp.2 headers restLines s1

/-- `parse_request` (http.rs lines 188-261).  The initial 2048-byte read
is unwrapped, so a failing read panics.  The result is paired with the
list of buffer sizes submitted to `read`, in order. -/
def parseRequest (s : ByteStream) : PRes HttpRequest × List Nat :=
  match streamRead s bufSize with
  | (none, _) => (.panicked, [bufSize])
  | (some buffer, s1) =>
    let r := parseFromBuffer buffer s1
    (r.1, bufSize :: r.2)

/-- A header line `Key: Value` as it appears on the wire. -/
def headerLine (kv : Bytes × Bytes) : Bytes :=
  kv.1 ++ ':' :: ' ' :: kv.2

/-- Wire bytes of a request built from a request line, header pairs and
the bytes following the header/body separator. -/
def reqData (fl : Bytes) (pairs : Headers) (chunk : Bytes) : Bytes :=
  fl ++ '\r' :: '\n' ::
    (pairs.map (fun kv => headerLine kv ++ ['\r', '\n'])).flatten ++
    '\r' :: '\n' :: chunk

/-- One accepted connection: its readable byte stream, the result of the
single `write` call (`none` = `Err`, `some n` = `Ok(n)`), and whether
`flush` succeeds. -/
structure Conn where
  stream : ByteStream
  writeResult : Option Nat
  flushOk : Bool
deriving DecidableEq

/-- Observable trace of one loop iteration: whether the request parsed,
the bytes handed to `write` (if the write was attempted), the write
result, whether `flush` was called, and whether an error line was
printed for the flush. -/
structure ConnTrace where
  parsedOk : Bool
  written : Option Bytes
  writeAccepted : Option Nat
  flushTried : Bool
  flushLogged : Bool
deriving DecidableEq

inductive ListenResult
  | bindErr
  | ok
  | panicked
deriving DecidableEq

/-- The body of one iteration of the accept loop (http.rs lines 166-177):
parse (a parse panic aborts the process, modelled by `none`; a parse
error drops the connection), invoke the handler, write the serialized
response; only if the write succeeded, flush and log a flush error. -/
def processConn (h : HttpRequest → HttpResponse) (c : Conn) : Option ConnTrace :=
  match (parseRequest c.stream).1 with
  | .panicked => none
  | .err => some ⟨false, none, none, false, false⟩
  | .ok req =>
    let bytes := responseToString (h req)
    match c.writeResult with
    | none => some ⟨true, some bytes, none, false, false⟩
    | some n => some ⟨true, some bytes, some n, true, !c.flushOk⟩

/-- `while let Ok((mut stream, _)) = listener.accept()` (http.rs lines
165-178): each element of `accepts` is one accept outcome; `none` (an
accept error) exits the loop, which then returns `Ok(())`.  A panic in
an iteration aborts the process. -/
def listenLoop (h : HttpRequest → HttpResponse) :
    List (Option Conn) → ListenResult × List ConnTrace
  | [] => (.ok, [])
  | none :: _ => (.ok, [])
  | some c :: rest =>
    match processConn h c with
    | none => (.panicked, [])
    | some tr =>
      let r := listenLoop h rest
      (r.1, tr :: r.2)

/-- `HttpServer::listen` (http.rs lines 162-181): `TcpListener::bind(addr)?`
surfaces a bind failure to the caller before any connection is served;
otherwise the accept loop runs. -/
def listenModel (bindOk : Bool) (accepts : List (Option Conn))
    (h : HttpRequest → HttpResponse) : ListenResult × List ConnTrace :=
  if bindOk then listenLoop h accepts else (.bindErr, [])

/-- A fixed handler (the shape of the one in main.rs, without the demo
headers), used for concrete instances. -/
def constHandler : HttpRequest → HttpResponse :=
  fun _ => ⟨.Ok, [], []⟩

/-! ### General lemmas about the byte-level helpers -/

theorem splitCRLF_ne_nil (xs : Bytes) : splitCRLF xs ≠ [] := by
  induction xs using splitCRLF.induct with
  | case1 => simp [splitCRLF]
  | case2 c => simp [splitCRLF]
  | case3 c d rest h ih =>
    simp only [splitCRLF, if_pos h]
    simp
  | case4 c d rest h ih =>
    rw [splitCRLF, if_neg h]
    cases hsp : splitCRLF (d :: rest) with
    | nil => exact absurd hsp ih
    | cons a l => simp [List.modifyHead]

theorem joinCRLF_cons_of_ne_nil (x : Bytes) (l : List Bytes) (h : l ≠ []) :
    joinCRLF (x :: l) = x ++ '\r' :: '\n' :: joinCRLF l := by
  cases l with
  | nil => exact absurd rfl h
  | cons y r => rfl

theorem joinCRLF_modifyHead (c : Char) (l : List Bytes) (h : l ≠ []) :
    joinCRLF (l.modifyHead (c :: ·)) = c :: joinCRLF l := by
  cases l with
  | nil => exact absurd rfl h
  | cons x r =>
    cases r with
    | nil => rfl
    | cons y s => simp [List.modifyHead, joinCRLF]

theorem joinCRLF_splitCRLF (xs : Bytes) : joinCRLF (splitCRLF xs) = xs := by
  induction xs using splitCRLF.induct with
  | case1 => rfl
  | case2 c => rfl
  | case3 c d rest h ih =>
    obtain ⟨hc, hd⟩ := h
    subst hc; subst hd
    have hcond : ('\r' : Char) = '\r' ∧ ('\n' : Char) = '\n' := ⟨rfl, rfl⟩
    rw [splitCRLF, if_pos hcond, joinCRLF_cons_of_ne_nil _ _ (splitCRLF_ne_nil rest), ih]
    rfl
  | case4 c d rest h ih =>
    rw [splitCRLF]
    simp only [if_neg h]
    rw [joinCRLF_modifyHead _ _ (splitCRLF_ne_nil (d :: rest)), ih]

theorem splitCRLF_append_crlf (a b : Bytes) (h : containsCRLF a = false) :
    splitCRLF (a ++ '\r' :: '\n' :: b) = a :: splitCRLF b := by
  induction a using containsCRLF.induct with
  | case1 =>
    have hcond : ('\r' : Char) = '\r' ∧ ('\n' : Char) = '\n' := ⟨rfl, rfl⟩
    rw [List.nil_append, splitCRLF, if_pos hcond]
  | case2 c =>
    have hcond : ¬(c = '\r' ∧ ('\r' : Char) = '\n') := by
      rintro ⟨-, hx⟩; exact absurd hx (by decide)
    have hcond2 : ('\r' : Char) = '\r' ∧ ('\n' : Char) = '\n' := ⟨rfl, rfl⟩
    rw [List.cons_append, List.nil_append, splitCRLF, if_neg hcond, splitCRLF,
      if_pos hcond2]
    rfl
  | case3 c d rest ih =>
    rw [containsCRLF, Bool.or_eq_false_iff] at h
    obtain ⟨h1, h2⟩ := h
    have hcond : ¬(c = '\r' ∧ d = '\n') := by
      rintro ⟨hc, hd⟩; subst hc; subst hd; simp at h1
    rw [List.cons_append, List.cons_append, splitCRLF, if_neg hcond]
    rw [List.cons_append] at ih
    rw [ih h2]
    rfl

theorem trimNulls_append_replicate (x : Bytes) (k : Nat) :
    trimNulls (x ++ List.replicate k nullChar) = trimNulls x := by
  unfold trimNulls
  rw [List.reverse_append, List.reverse_replicate,
    List.dropWhile_append_of_pos (by intro a ha; simp at ha; simp [ha.2])]

theorem insertAssoc_of_not_mem (m : Headers) (k v : Bytes)
    (h : k ∉ m.map Prod.fst) : insertAssoc m k v = m ++ [(k, v)] := by
  induction m with
  | nil => rfl
  | cons kv rest ih =>
    simp only [List.map_cons, List.mem_cons] at h
    push_neg at h
    rw [insertAssoc, if_neg (fun hx => h.1 hx.symm), ih h.2]
    rfl

theorem headerLine_ne_nil (kv : Bytes × Bytes) : headerLine kv ≠ [] := by
  unfold headerLine
  cases h : kv.1 with
  | nil => simp
  | cons a l => simp

theorem collectHeaders_pairs (pairs : Headers) :
    ∀ (acc : Headers) (tail : List Bytes),
    (∀ kv ∈ pairs, splitn2Colon (headerLine kv) = (kv.1, some kv.2)) →
    (pairs.map Prod.fst).Nodup →
    (∀ kv ∈ pairs, kv.1 ∉ acc.map Prod.fst) →
    collectHeaders acc (pairs.map headerLine ++ [] :: tail) = some (acc ++ pairs) := by
  induction pairs with
  | nil =>
    intro acc tail _ _ _
    simp [collectHeaders]
  | cons kv ps ih =>
    intro acc tail hsplit hnd hacc
    rw [List.map_cons, List.cons_append, collectHeaders,
      if_neg (headerLine_ne_nil kv), hsplit kv (List.mem_cons_self kv ps)]
    show collectHeaders (insertAssoc acc kv.1 kv.2)
      (List.map headerLine ps ++ [] :: tail) = some (acc ++ kv :: ps)
    rw [insertAssoc_of_not_mem acc kv.1 kv.2 (hacc kv (List.mem_cons_self kv ps))]
    rw [List.map_cons, List.nodup_cons] at hnd
    have step := ih (acc ++ [(kv.1, kv.2)]) tail
      (fun kv' h' => hsplit kv' (List.mem_cons_of_mem kv h'))
      hnd.2
      (by
        intro kv' h'
        rw [List.map_append]
        simp only [List.mem_append, List.map_cons, List.map_nil,
          List.mem_singleton]
        rintro (hc | hc)
        · exact hacc kv' (List.mem_cons_of_mem kv h') hc
        · exact hnd.1 (hc ▸ List.mem_map_of_mem Prod.fst h'))
    rw [step]
    simp

theorem splitCRLF_headerBlock (pairs : Headers) (s : Bytes)
    (h : ∀ kv ∈ pairs, containsCRLF (headerLine kv) = false) :
    splitCRLF ((pairs.map (fun kv => headerLine kv ++ ['\r', '\n'])).flatten ++
        '\r' :: '\n' :: s) =
      pairs.map headerLine ++ [] :: splitCRLF s := by
  induction pairs with
  | nil =>
    have hcond : ('\r' : Char) = '\r' ∧ ('\n' : Char) = '\n' := ⟨rfl, rfl⟩
    simp only [List.map_nil, List.flatten_nil, List.nil_append]
    rw [splitCRLF, if_pos hcond]
  | cons kv ps ih =>
    simp only [List.map_cons, List.flatten_cons, List.append_assoc,
      List.cons_append, List.nil_append]
    rw [splitCRLF_append_crlf _ _ (h kv (List.mem_cons_self kv ps))]
    rw [ih (fun kv' h' => h kv' (List.mem_cons_of_mem kv h'))]

theorem listenLoop_ne_bindErr (h : HttpRequest → HttpResponse)
    (accepts : List (Option Conn)) : (listenLoop h accepts).1 ≠ .bindErr := by
  induction accepts with
  | nil => simp [listenLoop]
  | cons a rest ih =>
    cases a with
    | none => simp [listenLoop]
    | some c =>
      rw [listenLoop]
      cases processConn h c with
      | none => simp
      | some tr => simpa using ih

theorem parseWithHeaders_eval (M : HttpMethod) (P : Bytes) (pairs : Headers)
    (rl : List Bytes) (rest : ByteStream) (tc : Bytes)
    (h : trimNulls (joinCRLF (rl.drop (pairs.length + 1))) = tc) :
    parseWithHeaders M P pairs rl rest =
      match contentLengthOf pairs with
      | none => (.panicked, [])
      | some n =>
        if n < tc.length then (.panicked, [])
        else if n - tc.length = 0 then (.ok ⟨M, P, pairs, tc⟩, [])
        else
          match streamRead rest (n - tc.length) with
          | (none, _) => (.panicked, [n - tc.length])
          | (some b2, _) => (.ok ⟨M, P, pairs, tc ++ b2⟩, [n - tc.length]) := by
  unfold parseWithHeaders
  simp only [h]

/-- Evaluation of `parseRequest` on a stream whose first read succeeds and
returns a whole well-formed request head: request line `fl`, header lines
built from `pairs` (with pairwise-distinct keys), the blank separator, and
`chunk` as the bytes following it. -/
theorem parse_shape (fl : Bytes) (pairs : Headers) (chunk : Bytes)
    (rest : ByteStream) (M : HttpMethod) (P : Bytes)
    (hfl : parseRequestLine fl = some (M, P))
    (hflc : containsCRLF fl = false)
    (hpc : ∀ kv ∈ pairs, containsCRLF (headerLine kv) = false)
    (hps : ∀ kv ∈ pairs, splitn2Colon (headerLine kv) = (kv.1, some kv.2))
    (hnd : (pairs.map Prod.fst).Nodup)
    (hlen : (reqData fl pairs chunk).length ≤ bufSize) :
    parseRequest (some (reqData fl pairs chunk) :: rest) =
      match contentLengthOf pairs with
      | none => (.panicked, [bufSize])
      | some n =>
        if n < (trimNulls chunk).length then (.panicked, [bufSize])
        else if n - (trimNulls chunk).length = 0 then
          (.ok ⟨M, P, pairs, trimNulls chunk⟩, [bufSize])
        else
          match streamRead rest (n - (trimNulls chunk).length) with
          | (none, _) => (.panicked, [bufSize, n - (trimNulls chunk).length])
          | (some b2, _) =>
            (.ok ⟨M, P, pairs, trimNulls chunk ++ b2⟩,
              [bufSize, n - (trimNulls chunk).length]) := by
  have hbuf : streamRead (some (reqData fl pairs chunk) :: rest) bufSize =
      (some (reqData fl pairs chunk ++
        List.replicate (bufSize - (reqData fl pairs chunk).length) nullChar),
        rest) := by
    simp [streamRead, List.take_of_length_le hlen]
  have hsplit : splitCRLF (reqData fl pairs chunk ++
      List.replicate (bufSize - (reqData fl pairs chunk).length) nullChar) =
      fl :: (pairs.map headerLine ++ [] :: splitCRLF (chunk ++
        List.replicate (bufSize - (reqData fl pairs chunk).length) nullChar)) := by
    unfold reqData
    simp only [List.append_assoc, List.cons_append]
    rw [splitCRLF_append_crlf _ _ hflc, splitCRLF_headerBlock pairs _ hpc]
  have hdrop : (pairs.map headerLine ++ [] :: splitCRLF (chunk ++
      List.replicate (bufSize - (reqData fl pairs chunk).length) nullChar)).drop
        (pairs.length + 1) =
      splitCRLF (chunk ++
        List.replicate (bufSize - (reqData fl pairs chunk).length) nullChar) := by
    rw [List.append_cons]
    exact List.drop_left' (by simp)
  have htc : trimNulls (joinCRLF ((pairs.map headerLine ++ [] :: splitCRLF (chunk ++
      List.replicate (bufSize - (reqData fl pairs chunk).length) nullChar)).drop
        (pairs.length + 1))) = trimNulls chunk := by
    rw [hdrop, joinCRLF_splitCRLF, trimNulls_append_replicate]
  unfold parseRequest
  rw [hbuf]
  show ((parseFromBuffer _ rest).1, bufSize :: (parseFromBuffer _ rest).2) = _
  unfold parseFromBuffer
  rw [hsplit]
  simp only []
  rw [hfl]
  simp only []
  rw [collectHeaders_pairs pairs [] _ hps hnd (by simp)]
  simp only [List.nil_append]
  rw [parseWithHeaders_eval M P pairs _ rest (trimNulls chunk) htc]
  cases hcl : contentLengthOf pairs with
  | none => simp
  | some n =>
    by_cases h1 : n < (trimNulls chunk).length
    · simp [h1]
    · by_cases h2 : n - (trimNulls chunk).length = 0
      · simp [h1, h2]
      · rcases hsr : streamRead rest (n - (trimNulls chunk).length) with ⟨o, s'⟩
        cases o with
        | none => simp [h1, h2, hsr]
        | some b2 => simp [h1, h2, hsr]

theorem splitCRLF_crlf_cons (xs : Bytes) :
    splitCRLF ('\r' :: '\n' :: xs) = [] :: splitCRLF xs := by
  have hcond : ('\r' : Char) = '\r' ∧ ('\n' : Char) = '\n' := ⟨rfl, rfl⟩
  rw [splitCRLF, if_pos hcond]

theorem collectHeaders_step (acc : Headers) (line : Bytes) (rest : List Bytes)
    (k v : Bytes) (h1 : line ≠ []) (h2 : splitn2Colon line = (k, some v)) :
    collectHeaders acc (line :: rest) = collectHeaders (insertAssoc acc k v) rest := by
  rw [collectHeaders, if_neg h1, h2]

theorem collectHeaders_stop (acc : Headers) (tail : List Bytes) :
    collectHeaders acc ([] :: tail) = some acc := by
  rw [collectHeaders, if_pos rfl]

theorem renderHeaderLines_flatten (hs : Headers) :
    renderHeaderLines hs =
      (hs.map (fun kv => kv.1 ++ ": ".toList ++ kv.2 ++ "\r\n".toList)).flatten := by
  suffices hgen : ∀ (a : Bytes),
      hs.foldl (fun acc kv => acc ++ kv.1 ++ ": ".toList ++ kv.2 ++ "\r\n".toList) a =
        a ++ (hs.map (fun kv => kv.1 ++ ": ".toList ++ kv.2 ++ "\r\n".toList)).flatten by
    simpa [renderHeaderLines] using hgen []
  induction hs with
  | nil => intro a; simp
  | cons kv rest ih =>
    intro a
    simp only [List.foldl_cons, List.map_cons, List.flatten_cons, ih]
    simp [List.append_assoc]

theorem parseRequestLine_of_splitWS (line m p : Bytes) (extra : List Bytes)
    (h : splitWhitespace line = m :: p :: extra) :
    parseRequestLine line = (methodFromStr m).map (fun M => (M, p)) := by
  rw [parseRequestLine, h]
  cases hm : methodFromStr m with
  | none => simp [hm]
  | some M => simp [hm]

/-- Parsing the minimal request `GET /` CRLF CRLF: no headers, no body,
no protocol-version token on the request line. -/
theorem parseRequest_simpleGet :
    parseRequest [some (reqData "GET /".toList [] [])] =
      (.ok ⟨.Get, "/".toList, [], []⟩, [bufSize]) := by
  have h := parse_shape "GET /".toList [] [] [] .Get "/".toList (by decide)
    (by decide) (by simp) (by simp) (by simp) (by decide)
  rw [h]
  rw [show contentLengthOf [] = some 0 from rfl]
  simp [trimNulls]

/-! ### Claim theorems -/

/-- Claim C5: serializing an `HttpResponse` produces exactly the status
line `HTTP/1.1 <code> <REASON>` CRLF, each header of the response
rendered once as `Key: Value` CRLF (in map-iteration order), a blank
line, and the body with no trailing terminator; nothing else (in
particular no Content-Length) is injected, since the output is exactly
the spec-worded `specSerialize` of the same response.  Every symbolic
status code carries its fixed numeric code and reason phrase, with
`Ok` giving the status line `HTTP/1.1 200 OK`. -/
theorem serializer_exact_bytes :
    (∀ r : HttpResponse, responseToString r = specSerialize r) ∧
    (∀ (hdrs : Headers) (body : Bytes),
      responseToString ⟨.Ok, hdrs, body⟩ =
        "HTTP/1.1 200 OK\r\n".toList ++
          (hdrs.map (fun kv => kv.1 ++ ": ".toList ++ kv.2 ++ "\r\n".toList)).flatten ++
          "\r\n".toList ++ body) ∧
    toHttpStatus .Ok = (200, "OK".toList) ∧
    toHttpStatus .Created = (201, "CREATED".toList) ∧
    toHttpStatus .Accepted = (202, "ACCEPTED".toList) ∧
    toHttpStatus .NoContent = (204, "NO CONTENT".toList) ∧
    toHttpStatus .MovedPermanently = (301, "MOVED PERMANENTLY".toList) ∧
    toHttpStatus .Found = (302, "FOUND".toList) ∧
    toHttpStatus .NotModified = (304, "NOT MODIFIED".toList) ∧
    toHttpStatus .BadRequest = (400, "BAD REQUEST".toList) ∧
    toHttpStatus .Unauthorized = (401, "UNAUTHORIZED".toList) ∧
    toHttpStatus .Forbidden = (403, "FORBIDDEN".toList) ∧
    toHttpStatus .NotFound = (404, "NOT FOUND".toList) ∧
    toHttpStatus .MethodNotAllowed = (405, "METHOD NOT ALLOWED".toList) ∧
    toHttpStatus .InternalServerError = (500, "INTERNAL SERVER ERROR".toList) ∧
    toHttpStatus .NotImplemented = (501, "NOT IMPLEMENTED".toList) ∧
    toHttpStatus .BadGateway = (502, "BAD GATEWAY".toList) ∧
    toHttpStatus .ServiceUnavailable = (503, "SERVICE UNAVAILABLE".toList) := by
  refine ⟨?_, ?_, rfl, rfl, rfl, rfl, rfl, rfl, rfl, rfl, rfl, rfl, rfl, rfl,
    rfl, rfl, rfl, rfl⟩
  · intro r
    unfold responseToString specSerialize
    rw [renderHeaderLines_flatten]
    have hsp : (" ".toList : Bytes) = [' '] := rfl
    have hcr : ("\r\n".toList : Bytes) = ['\r', '\n'] := rfl
    simp [hsp, hcr, List.append_assoc]
  · intro hdrs body
    unfold responseToString
    rw [renderHeaderLines_flatten]
    have hlit : ("HTTP/1.1 200 OK\r\n".toList : Bytes) =
        "HTTP/1.1 ".toList ++ natRepr 200 ++ ' ' :: "OK".toList ++ ['\r', '\n'] := by
      decide
    rw [hlit]
    have hcr : ("\r\n".toList : Bytes) = ['\r', '\n'] := rfl
    simp [toHttpStatus, hcr, List.append_assoc]

/-- Claim C6: parsing a string token as an HTTP method yields the
matching symbolic method exactly for the eight tokens GET, POST, PUT,
PATCH, DELETE, HEAD, OPTIONS, TRACE, and fails on every other token. -/
theorem method_vocabulary :
    methodFromStr "GET".toList = some .Get ∧
    methodFromStr "POST".toList = some .Post ∧
    methodFromStr "PUT".toList = some .Put ∧
    methodFromStr "PATCH".toList = some .Patch ∧
    methodFromStr "DELETE".toList = some .Delete ∧
    methodFromStr "HEAD".toList = some .Head ∧
    methodFromStr "OPTIONS".toList = some .Options ∧
    methodFromStr "TRACE".toList = some .Trace ∧
    (∀ s : Bytes,
      s ∉ ["GET".toList, "POST".toList, "PUT".toList, "PATCH".toList,
        "DELETE".toList, "HEAD".toList, "OPTIONS".toList, "TRACE".toList] →
      methodFromStr s = none) := by
  refine ⟨by decide, by decide, by decide, by decide, by decide, by decide,
    by decide, by decide, ?_⟩
  intro s hs
  simp only [List.mem_cons, List.not_mem_nil, or_false, not_or] at hs
  obtain ⟨h1, h2, h3, h4, h5, h6, h7, h8⟩ := hs
  unfold methodFromStr
  rw [if_neg h1, if_neg h2, if_neg h3, if_neg h4, if_neg h5, if_neg h6, if_neg h7,
    if_neg h8]

/-- Witness for C6 at the concrete non-method token LOL. -/
theorem method_vocabulary_witness : methodFromStr "LOL".toList = none :=
  method_vocabulary.2.2.2.2.2.2.2.2 "LOL".toList (by decide)

/-- Claim C10: the parser takes the path to be the second
whitespace-delimited token of the request line and never inspects what
follows it: the result is determined by the first two tokens alone, so a
missing, malformed, or duplicated protocol-version token changes
nothing, and the version-less request line `GET /` parses successfully
end to end. -/
theorem request_line_ignores_version :
    (∀ (line m p : Bytes) (extra : List Bytes),
      splitWhitespace line = m :: p :: extra →
      parseRequestLine line = (methodFromStr m).map (fun M => (M, p))) ∧
    (∀ (l1 l2 m p : Bytes) (e1 e2 : List Bytes),
      splitWhitespace l1 = m :: p :: e1 →
      splitWhitespace l2 = m :: p :: e2 →
      parseRequestLine l1 = parseRequestLine l2) ∧
    parseRequest [some (reqData "GET /".toList [] [])] =
      (.ok ⟨.Get, "/".toList, [], []⟩, [bufSize]) := by
  refine ⟨parseRequestLine_of_splitWS, ?_, parseRequest_simpleGet⟩
  intro l1 l2 m p e1 e2 h1 h2
  rw [parseRequestLine_of_splitWS l1 m p e1 h1, parseRequestLine_of_splitWS l2 m p e2 h2]

/-- Witness for C10: a request line with two trailing garbage tokens
parses to the same result as one with the standard version token. -/
theorem request_line_ignores_version_witness :
    parseRequestLine "GET / one two".toList =
      parseRequestLine "GET / HTTP/1.1".toList :=
  request_line_ignores_version.2.1 "GET / one two".toList "GET / HTTP/1.1".toList
    "GET".toList "/".toList ["one".toList, "two".toList] ["HTTP/1.1".toList]
    (by decide) (by decide)

/-- Claim C3: when the initial read captures fewer body bytes than the
declared Content-Length, `parseRequest` performs exactly one additional
read sized to the remaining byte count (the submitted read sizes are
`[bufSize, n - chunk.length]`), and returns a body equal to the
concatenation of the first chunk and the second read, of length exactly
the declared Content-Length. -/
theorem body_assembly_across_reads (fl : Bytes) (pairs : Headers)
    (chunk second : Bytes) (rest : ByteStream) (M : HttpMethod) (P : Bytes)
    (n : Nat)
    (hfl : parseRequestLine fl = some (M, P))
    (hflc : containsCRLF fl = false)
    (hpc : ∀ kv ∈ pairs, containsCRLF (headerLine kv) = false)
    (hps : ∀ kv ∈ pairs, splitn2Colon (headerLine kv) = (kv.1, some kv.2))
    (hnd : (pairs.map Prod.fst).Nodup)
    (hlen : (reqData fl pairs chunk).length ≤ bufSize)
    (hn : contentLengthOf pairs = some n)
    (htrim : trimNulls chunk = chunk)
    (hlt : chunk.length < n)
    (hsec : second.length = n - chunk.length) :
    parseRequest (some (reqData fl pairs chunk) :: some second :: rest) =
      (.ok ⟨M, P, pairs, chunk ++ second⟩, [bufSize, n - chunk.length]) ∧
    (chunk ++ second).length = n := by
  have h := parse_shape fl pairs chunk (some second :: rest) M P hfl hflc hpc
    hps hnd hlen
  rw [hn] at h
  simp only [htrim] at h
  rw [if_neg (by omega), if_neg (by omega)] at h
  have hsr : streamRead (some second :: rest) (n - chunk.length) =
      (some second, rest) := by
    simp [streamRead, List.take_of_length_le (le_of_eq hsec), hsec]
  rw [hsr] at h
  exact ⟨h, by rw [List.length_append]; omega⟩

/-- Witness for C3: `Content-Length: 20` with 5 body bytes captured by the
first read makes the parser issue one more read of 15 bytes and return
the 20-byte concatenation. -/
theorem body_assembly_across_reads_witness :
    parseRequest
      [some (reqData "GET / HTTP/1.1".toList
        [("Content-Length".toList, "20".toList)] "hello".toList),
       some "123456789012345".toList] =
      (.ok ⟨.Get, "/".toList, [("Content-Length".toList, "20".toList)],
        "hello".toList ++ "123456789012345".toList⟩,
        [bufSize, 20 - ("hello".toList).length]) ∧
    ("hello".toList ++ "123456789012345".toList).length = 20 :=
  body_assembly_across_reads "GET / HTTP/1.1".toList
    [("Content-Length".toList, "20".toList)] "hello".toList
    "123456789012345".toList [] .Get "/".toList 20
    (by decide) (by decide) (by decide) (by decide) (by decide) (by decide)
    (by decide) (by decide) (by decide) (by decide)

/-- Claim C2 (amended): when the bytes captured for the body by the
initial read are exactly the declared Content-Length, no further read
occurs and the assembled request is returned; but when they exceed the
declared Content-Length, the subtraction `content_length - body.len()`
underflows and the process aborts instead of returning. -/
theorem no_second_read_when_full (fl : Bytes) (pairs : Headers)
    (chunk : Bytes) (rest : ByteStream) (M : HttpMethod) (P : Bytes) (n : Nat)
    (hfl : parseRequestLine fl = some (M, P))
    (hflc : containsCRLF fl = false)
    (hpc : ∀ kv ∈ pairs, containsCRLF (headerLine kv) = false)
    (hps : ∀ kv ∈ pairs, splitn2Colon (headerLine kv) = (kv.1, some kv.2))
    (hnd : (pairs.map Prod.fst).Nodup)
    (hlen : (reqData fl pairs chunk).length ≤ bufSize)
    (hn : contentLengthOf pairs = some n)
    (htrim : trimNulls chunk = chunk) :
    (chunk.length = n →
      parseRequest (some (reqData fl pairs chunk) :: rest) =
        (.ok ⟨M, P, pairs, chunk⟩, [bufSize])) ∧
    (n < chunk.length →
      parseRequest (some (reqData fl pairs chunk) :: rest) =
        (.panicked, [bufSize])) := by
  have h := parse_shape fl pairs chunk rest M P hfl hflc hpc hps hnd hlen
  rw [hn] at h
  simp only [htrim] at h
  constructor
  · intro heq
    rw [if_neg (by omega), if_pos (by omega)] at h
    exact h
  · intro hgt
    rw [if_pos hgt] at h
    exact h

/-- Witness for C2: a two-byte body with `Content-Length: 2` is returned
after the single initial read. -/
theorem no_second_read_when_full_witness :
    parseRequest [some (reqData "GET / HTTP/1.1".toList
      [("Content-Length".toList, "2".toList)] "AB".toList)] =
      (.ok ⟨.Get, "/".toList, [("Content-Length".toList, "2".toList)],
        "AB".toList⟩, [bufSize]) :=
  (no_second_read_when_full "GET / HTTP/1.1".toList
    [("Content-Length".toList, "2".toList)] "AB".toList [] .Get "/".toList 2
    (by decide) (by decide) (by decide) (by decide) (by decide) (by decide)
    (by decide) (by decide)).1 (by decide)

/-- Counterexample for C2 as stated: with `Content-Length: 0` and one
body byte already captured, the captured bytes are greater than or equal
to the declared length, yet the parser does not return the assembled
request: the remaining-byte computation underflows and the process
aborts. -/
theorem captured_exceeds_declared_panics :
    parseRequest [some (reqData "GET / HTTP/1.1".toList
      [("Content-Length".toList, "0".toList)] "X".toList)] =
      (.panicked, [bufSize]) := by
  have h := parse_shape "GET / HTTP/1.1".toList
    [("Content-Length".toList, "0".toList)] "X".toList [] .Get "/".toList
    (by decide) (by decide) (by decide) (by decide) (by decide) (by decide)
  rw [show contentLengthOf [("Content-Length".toList, "0".toList)] = some 0
    from by decide] at h
  rw [show trimNulls "X".toList = "X".toList from by decide] at h
  simp only [] at h
  rw [if_pos (by decide)] at h
  exact h

/-- Claim C4 (amended): when the header names are pairwise distinct, the
first chunk of the returned body is exactly the content of the initial
read buffer after the header/body separator, with the NUL padding of the
fixed-size buffer stripped (from both ends, as `trim_matches` does)
before its length is measured.  (The counterexample shows the claim
fails when the header block contains duplicate header names.) -/
theorem first_chunk_is_after_separator (fl : Bytes) (pairs : Headers)
    (chunk : Bytes) (rest : ByteStream) (M : HttpMethod) (P : Bytes) (n : Nat)
    (hfl : parseRequestLine fl = some (M, P))
    (hflc : containsCRLF fl = false)
    (hpc : ∀ kv ∈ pairs, containsCRLF (headerLine kv) = false)
    (hps : ∀ kv ∈ pairs, splitn2Colon (headerLine kv) = (kv.1, some kv.2))
    (hnd : (pairs.map Prod.fst).Nodup)
    (hlen : (reqData fl pairs chunk).length ≤ bufSize)
    (hn : contentLengthOf pairs = some n)
    (heq : (trimNulls chunk).length = n) :
    parseRequest (some (reqData fl pairs chunk) :: rest) =
      (.ok ⟨M, P, pairs, trimNulls chunk⟩, [bufSize]) := by
  have h := parse_shape fl pairs chunk rest M P hfl hflc hpc hps hnd hlen
  rw [hn] at h
  simp only [] at h
  rw [if_neg (by omega), if_pos (by omega)] at h
  exact h

/-- Witness for C4: a body whose wire form carries trailing NUL bytes is
returned trimmed. -/
theorem first_chunk_is_after_separator_witness :
    parseRequest [some (reqData "GET / HTTP/1.1".toList
      [("Content-Length".toList, "2".toList)]
      ('H' :: 'i' :: [nullChar, nullChar]))] =
      (.ok ⟨.Get, "/".toList, [("Content-Length".toList, "2".toList)],
        trimNulls ('H' :: 'i' :: [nullChar, nullChar])⟩, [bufSize]) :=
  first_chunk_is_after_separator "GET / HTTP/1.1".toList
    [("Content-Length".toList, "2".toList)]
    ('H' :: 'i' :: [nullChar, nullChar]) [] .Get "/".toList 2
    (by decide) (by decide) (by decide) (by decide) (by decide) (by decide)
    (by decide) (by decide)

/-- Counterexample for C4 as stated: with duplicate header names `A`, the
map holds fewer entries than there are header lines, the line skip
undercounts, and the returned first chunk is CR LF `BODY` — not the
content after the separator (`BODY`), NUL padding stripped. -/
theorem duplicate_headers_break_first_chunk :
    parseRequest [some (reqData "GET / HTTP/1.1".toList
      [("A".toList, "1".toList), ("A".toList, "2".toList),
        ("Content-Length".toList, "6".toList)] "BODY".toList)] =
      (.ok ⟨.Get, "/".toList,
        [("A".toList, "2".toList), ("Content-Length".toList, "6".toList)],
        '\r' :: '\n' :: "BODY".toList⟩, [bufSize]) ∧
    ('\r' :: '\n' :: "BODY".toList) ≠ trimNulls "BODY".toList := by
  refine ⟨?_, by decide⟩
  set pairs : Headers := [("A".toList, "1".toList), ("A".toList, "2".toList),
    ("Content-Length".toList, "6".toList)] with hpairs
  set d : Bytes := reqData "GET / HTTP/1.1".toList pairs "BODY".toList with hd
  set k : Nat := bufSize - d.length with hk
  set T : List Bytes := splitCRLF ("BODY".toList ++ List.replicate k nullChar)
    with hT
  have hbuf : streamRead [some d] bufSize =
      (some (d ++ List.replicate k nullChar), []) := by
    have hdlen : d.length ≤ bufSize := by rw [hd]; decide
    simp [streamRead, List.take_of_length_le hdlen]
  have hsplit : splitCRLF (d ++ List.replicate k nullChar) =
      "GET / HTTP/1.1".toList :: (pairs.map headerLine ++ [] :: T) := by
    rw [hd]
    unfold reqData
    simp only [List.append_assoc, List.cons_append]
    rw [splitCRLF_append_crlf _ _ (by decide),
      splitCRLF_headerBlock pairs _ (by decide)]
  have hch : collectHeaders [] (pairs.map headerLine ++ [] :: T) =
      some [("A".toList, "2".toList), ("Content-Length".toList, "6".toList)] := by
    rw [show pairs.map headerLine =
      ["A: 1".toList, "A: 2".toList, "Content-Length: 6".toList] from by decide]
    simp only [List.cons_append, List.nil_append]
    rw [collectHeaders_step _ _ _ "A".toList "1".toList (by decide) (by decide)]
    rw [show insertAssoc [] "A".toList "1".toList = [("A".toList, "1".toList)]
      from by decide]
    rw [collectHeaders_step _ _ _ "A".toList "2".toList (by decide) (by decide)]
    rw [show insertAssoc [("A".toList, "1".toList)] "A".toList "2".toList =
      [("A".toList, "2".toList)] from by decide]
    rw [collectHeaders_step _ _ _ "Content-Length".toList "6".toList
      (by decide) (by decide)]
    rw [show insertAssoc [("A".toList, "2".toList)] "Content-Length".toList
      "6".toList = [("A".toList, "2".toList), ("Content-Length".toList,
        "6".toList)] from by decide]
    exact collectHeaders_stop _ _
  have htc : trimNulls (joinCRLF (((pairs.map headerLine ++ [] :: T)).drop
      ([("A".toList, "2".toList), ("Content-Length".toList,
        "6".toList)].length + 1))) = '\r' :: '\n' :: "BODY".toList := by
    rw [show pairs.map headerLine =
      ["A: 1".toList, "A: 2".toList, "Content-Length: 6".toList] from by decide]
    simp only [List.cons_append, List.nil_append, List.length_cons,
      List.length_nil, List.drop_succ_cons, List.drop_zero]
    rw [joinCRLF_cons_of_ne_nil _ _ (by rw [hT]; exact splitCRLF_ne_nil _)]
    rw [hT, joinCRLF_splitCRLF, List.nil_append]
    rw [show ('\r' :: '\n' :: ("BODY".toList ++ List.replicate k nullChar) : Bytes) =
      ('\r' :: '\n' :: "BODY".toList) ++ List.replicate k nullChar from by simp]
    rw [trimNulls_append_replicate]
    decide
  unfold parseRequest
  rw [hbuf]
  show ((parseFromBuffer _ []).1, bufSize :: (parseFromBuffer _ []).2) = _
  unfold parseFromBuffer
  rw [hsplit]
  simp only []
  rw [show parseRequestLine "GET / HTTP/1.1".toList =
    some (.Get, "/".toList) from by decide]
  simp only []
  rw [hch]
  simp only []
  rw [parseWithHeaders_eval .Get "/".toList _ _ [] _ htc]
  rw [show contentLengthOf [("A".toList, "2".toList), ("Content-Length".toList,
    "6".toList)] = some 6 from by decide]
  simp only []
  rw [if_neg (by decide), if_pos (by decide)]

/-- Claim C7 (amended): an absent Content-Length header gives a declared
body length of 0; but a non-numeric Content-Length value does not
produce an error result handed back to the connection loop — the
`.unwrap()` of `parse::<usize>()` panics, aborting the process. -/
theorem content_length_parsing (fl : Bytes) (pairs : Headers) (chunk : Bytes)
    (rest : ByteStream) (M : HttpMethod) (P : Bytes)
    (hfl : parseRequestLine fl = some (M, P))
    (hflc : containsCRLF fl = false)
    (hpc : ∀ kv ∈ pairs, containsCRLF (headerLine kv) = false)
    (hps : ∀ kv ∈ pairs, splitn2Colon (headerLine kv) = (kv.1, some kv.2))
    (hnd : (pairs.map Prod.fst).Nodup)
    (hlen : (reqData fl pairs chunk).length ≤ bufSize) :
    (∀ hs : Headers, getAssoc hs "Content-Length".toList = none →
      contentLengthOf hs = some 0) ∧
    (∀ (hs : Headers) (v : Bytes), getAssoc hs "Content-Length".toList = some v →
      parseUsize v = none → contentLengthOf hs = none) ∧
    (contentLengthOf pairs = none →
      parseRequest (some (reqData fl pairs chunk) :: rest) =
        (.panicked, [bufSize])) := by
  refine ⟨?_, ?_, ?_⟩
  · intro hs hget
    rw [contentLengthOf, hget]
  · intro hs v hget hval
    rw [contentLengthOf, hget]
    simp only []
    rw [hval]
  · intro hcl
    have h := parse_shape fl pairs chunk rest M P hfl hflc hpc hps hnd hlen
    rw [hcl] at h
    exact h

/-- Witness for C7: headers without a Content-Length entry declare length
0, and the amended panic branch fires on a non-numeric value. -/
theorem content_length_parsing_witness :
    contentLengthOf [("X".toList, "y".toList)] = some 0 ∧
    contentLengthOf [("Content-Length".toList, "two".toList)] = none :=
  ⟨(content_length_parsing "GET /".toList [] [] [] .Get "/".toList
      (by decide) (by decide) (by simp) (by simp) (by simp) (by decide)).1
      [("X".toList, "y".toList)] (by decide),
    (content_length_parsing "GET /".toList [] [] [] .Get "/".toList
      (by decide) (by decide) (by simp) (by simp) (by simp) (by decide)).2.1
      [("Content-Length".toList, "two".toList)] "two".toList
      (by decide) (by decide)⟩

/-- Counterexample for C7 as stated: a request with the non-numeric
header `Content-Length: abc` does not make `parse_request` return an
error result to the connection loop; the unwrap panics and the process
aborts. -/
theorem non_numeric_content_length_panics :
    parseRequest [some (reqData "GET / HTTP/1.1".toList
      [("Content-Length".toList, "abc".toList)] [])] =
      (.panicked, [bufSize]) := by
  have h := parse_shape "GET / HTTP/1.1".toList
    [("Content-Length".toList, "abc".toList)] [] [] .Get "/".toList
    (by decide) (by decide) (by decide) (by decide) (by decide) (by decide)
  rw [show contentLengthOf [("Content-Length".toList, "abc".toList)] = none
    from by decide] at h
  exact h

/-- Claim C1 (amended): a request line whose method token is outside the
closed vocabulary, or which has no path token, makes `parse_request`
return a parse-error result, and the connection loop then drops the
connection (nothing is written) and continues with the remaining
connections; but a stream that cannot be read does not yield a parse
error — the `.unwrap()` of the initial read panics and aborts the whole
server. -/
theorem parse_failure_handling :
    (∀ rest : ByteStream, parseRequest (none :: rest) = (.panicked, [bufSize])) ∧
    (∀ (d : Bytes) (rest : ByteStream) (fl : Bytes) (rls : List Bytes),
      splitCRLF (d.take bufSize ++
        List.replicate (bufSize - d.length) nullChar) = fl :: rls →
      parseRequestLine fl = none →
      parseRequest (some d :: rest) = (.err, [bufSize])) ∧
    (∀ (line tok : Bytes) (toks : List Bytes),
      splitWhitespace line = tok :: toks → methodFromStr tok = none →
      parseRequestLine line = none) ∧
    (∀ (line tok : Bytes), splitWhitespace line = [tok] →
      parseRequestLine line = none) ∧
    (∀ (h : HttpRequest → HttpResponse) (c : Conn) (rest : List (Option Conn)),
      (parseRequest c.stream).1 = .err →
      listenLoop h (some c :: rest) =
        ((listenLoop h rest).1,
          ⟨false, none, none, false, false⟩ :: (listenLoop h rest).2)) := by
  refine ⟨?_, ?_, ?_, ?_, ?_⟩
  · intro rest
    rfl
  · intro d rest fl rls hsplit hline
    unfold parseRequest
    rw [show streamRead (some d :: rest) bufSize =
      (some (d.take bufSize ++ List.replicate (bufSize - d.length) nullChar),
        rest) from rfl]
    show ((parseFromBuffer _ rest).1, bufSize :: (parseFromBuffer _ rest).2) = _
    unfold parseFromBuffer
    rw [hsplit]
    simp only []
    rw [hline]
  · intro line tok toks hsw hm
    rw [parseRequestLine, hsw]
    simp [hm]
  · intro line tok hsw
    rw [parseRequestLine, hsw]
    cases hm : methodFromStr tok with
    | none => simp [hm]
    | some M => simp [hm]
  · intro h c rest hperr
    rw [listenLoop]
    rw [show processConn h c = some ⟨false, none, none, false, false⟩ from by
      unfold processConn
      rw [hperr]]

/-- Counterexample for C1 as stated: a connection whose stream cannot be
read (the first read fails) does not produce a parse-error result — the
parser panics, and the panic propagates out of the accept loop, so the
handler does not drop the connection and continue. -/
theorem unreadable_stream_crashes :
    parseRequest [none] = (.panicked, [bufSize]) ∧
    listenLoop constHandler [some ⟨[none], some 0, true⟩, some ⟨[none], some 0, true⟩] =
      (.panicked, []) :=
  ⟨rfl, rfl⟩

/-- Witness for C1: an unknown method token and a missing path token are
parse errors; the error result makes the loop drop the connection and
continue; a failed read panics. -/
theorem parse_failure_handling_witness :
    parseRequestLine "FOO / HTTP/1.1".toList = none ∧
    parseRequestLine "GET".toList = none ∧
    parseRequest [some "FOO /\r\n\r\n".toList] = (.err, [bufSize]) ∧
    listenLoop constHandler [some ⟨[some "FOO /\r\n\r\n".toList], some 0, true⟩] =
      (.ok, [⟨false, none, none, false, false⟩]) ∧
    parseRequest [none, some "GET /\r\n\r\n".toList] = (.panicked, [bufSize]) := by
  have hs2 : splitCRLF (("FOO /\r\n\r\n".toList : Bytes).take bufSize ++
      List.replicate (bufSize - ("FOO /\r\n\r\n".toList : Bytes).length) nullChar) =
      "FOO /".toList :: ([] :: splitCRLF (List.replicate (bufSize - 9) nullChar)) := by
    rw [List.take_of_length_le (by decide)]
    rw [show ("FOO /\r\n\r\n".toList ++ List.replicate
        (bufSize - ("FOO /\r\n\r\n".toList : Bytes).length) nullChar : Bytes) =
      "FOO /".toList ++ '\r' :: '\n' ::
        ('\r' :: '\n' :: List.replicate (bufSize - 9) nullChar) from rfl]
    rw [splitCRLF_append_crlf _ _ (by decide), splitCRLF_crlf_cons]
  have herr : parseRequest [some "FOO /\r\n\r\n".toList] = (.err, [bufSize]) :=
    parse_failure_handling.2.1 "FOO /\r\n\r\n".toList [] "FOO /".toList
      ([] :: splitCRLF (List.replicate (bufSize - 9) nullChar)) hs2 (by decide)
  refine ⟨parse_failure_handling.2.2.1 "FOO / HTTP/1.1".toList "FOO".toList
      ["/".toList, "HTTP/1.1".toList] (by decide) (by decide),
    parse_failure_handling.2.2.2.1 "GET".toList "GET".toList (by decide),
    herr, ?_, parse_failure_handling.1 [some "GET /\r\n\r\n".toList]⟩
  rw [parse_failure_handling.2.2.2.2 constHandler
    ⟨[some "FOO /\r\n\r\n".toList], some 0, true⟩ []
    (by rw [show (Conn.mk [some "FOO /\r\n\r\n".toList] (some 0) true).stream =
      [some "FOO /\r\n\r\n".toList] from rfl, herr])]
  rfl

/-- Claim C8 (amended): `listen` returns an error exactly when binding
the listening address fails; parse failures and write/flush outcomes
never terminate the accept loop — but the loop is not endless
regardless of accept outcomes: an accept failure exits it, and `listen`
then returns Ok. -/
theorem listen_loop_termination :
    (∀ (bindOk : Bool) (accepts : List (Option Conn))
      (h : HttpRequest → HttpResponse),
      ((listenModel bindOk accepts h).1 = .bindErr ↔ bindOk = false)) ∧
    (∀ (h : HttpRequest → HttpResponse) (k : List (Option Conn)),
      listenLoop h (none :: k) = (.ok, [])) ∧
    (∀ (h : HttpRequest → HttpResponse) (c : Conn) (k : List (Option Conn))
      (tr : ConnTrace), processConn h c = some tr →
      listenLoop h (some c :: k) =
        ((listenLoop h k).1, tr :: (listenLoop h k).2)) := by
  refine ⟨?_, ?_, ?_⟩
  · intro bindOk accepts h
    cases bindOk with
    | false => simp [listenModel]
    | true =>
      simp only [listenModel, if_pos]
      exact ⟨fun hx => absurd hx (listenLoop_ne_bindErr h accepts),
        fun hx => absurd hx (by decide)⟩
  · intro h k
    rfl
  · intro h c k tr hp
    rw [listenLoop, hp]

theorem processConn_goodConn :
    processConn constHandler ⟨[some (reqData "GET /".toList [] [])], some 5, true⟩ =
      some ⟨true, some "HTTP/1.1 200 OK\r\n\r\n".toList, some 5, true, false⟩ := by
  unfold processConn
  rw [show (Conn.mk [some (reqData "GET /".toList [] [])] (some 5) true).stream =
    [some (reqData "GET /".toList [] [])] from rfl, parseRequest_simpleGet]
  decide

/-- Counterexample for C8 as stated: with a successful bind, a failed
accept terminates the loop (listen returns Ok) even though another
connection is pending behind it — the loop does not run regardless of
accept outcomes. -/
theorem accept_error_ends_loop :
    listenModel true
      [none, some ⟨[some (reqData "GET /".toList [] [])], some 5, true⟩]
      constHandler = (.ok, []) := rfl

/-- Witness for C8: a failing bind is reported as the bind error, and a
served connection leaves the loop running. -/
theorem listen_loop_termination_witness :
    (listenModel false [] constHandler).1 = .bindErr ∧
    listenLoop constHandler
      [some ⟨[some (reqData "GET /".toList [] [])], some 5, true⟩] =
      (.ok, [⟨true, some "HTTP/1.1 200 OK\r\n\r\n".toList, some 5, true, false⟩]) := by
  refine ⟨(listen_loop_termination.1 false [] constHandler).mpr rfl, ?_⟩
  rw [listen_loop_termination.2.2 constHandler _ [] _ processConn_goodConn]
  rfl

/-- Claim C9 (amended): for every successfully parsed request the loop
makes a single write call carrying the entire serialized response; if
the write call succeeds (whatever byte count it reports) the stream is
flushed and a flush error is logged; but a write error is silently
ignored — no flush is attempted and nothing is logged.  In all cases
the accept loop continues with the next connection. -/
theorem write_flush_behavior :
    (∀ (h : HttpRequest → HttpResponse) (c : Conn) (req : HttpRequest),
      (parseRequest c.stream).1 = .ok req →
      processConn h c = some ⟨true, some (responseToString (h req)),
        c.writeResult, c.writeResult.isSome, c.writeResult.isSome && !c.flushOk⟩) ∧
    (∀ (h : HttpRequest → HttpResponse) (c : Conn) (k : List (Option Conn))
      (tr : ConnTrace), processConn h c = some tr →
      listenLoop h (some c :: k) =
        ((listenLoop h k).1, tr :: (listenLoop h k).2)) := by
  constructor
  · intro h c req hok
    unfold processConn
    rw [hok]
    cases hw : c.writeResult with
    | none => simp [hw]
    | some n => simp [hw]
  · intro h c k tr hp
    rw [listenLoop, hp]

/-- Counterexample for C9 as stated: when the write call fails on a
successfully parsed request, the error is not reported (nothing is
logged) and no flush happens before the connection is closed. -/
theorem write_error_unlogged :
    processConn constHandler ⟨[some (reqData "GET /".toList [] [])], none, true⟩ =
      some ⟨true, some "HTTP/1.1 200 OK\r\n\r\n".toList, none, false, false⟩ := by
  unfold processConn
  rw [show (Conn.mk [some (reqData "GET /".toList [] [])] none true).stream =
    [some (reqData "GET /".toList [] [])] from rfl, parseRequest_simpleGet]
  decide

/-- Witness for C9: a successful write followed by a failing flush is
logged, and the serialized bytes handed to the write call are the whole
response. -/
theorem write_flush_behavior_witness :
    processConn constHandler ⟨[some (reqData "GET /".toList [] [])], some 3, false⟩ =
      some ⟨true, some "HTTP/1.1 200 OK\r\n\r\n".toList, some 3, true, true⟩ := by
  have h := write_flush_behavior.1 constHandler
    ⟨[some (reqData "GET /".toList [] [])], some 3, false⟩
    ⟨.Get, "/".toList, [], []⟩ (by
      rw [show (Conn.mk [some (reqData "GET /".toList [] [])] (some 3)
        false).stream = [some (reqData "GET /".toList [] [])] from rfl,
        parseRequest_simpleGet])
  exact h.trans (by decide)
